import Mathlib

/-!
A shallow embedding of the queue core of the `jtt9340/queue` Slack bot
(`src/queue.rs`, with `UserID` as used there: a wrapper around a Slack-ID
string compared by that string alone), together with proofs checking the
natural-language specification against it.

Modelling conventions:
* `UserID` is a `String` (equality in the source is by the wrapped string).
* The backing file (`db_conn`) is modelled by its textual contents; file
  lengths are character counts (all contents in scope are ASCII).
* A fallible file write is driven by an environment-chosen `WriteOutcome`;
  `write_state` also counts its invocations in `io_ops` so that "no
  persistence I/O happened" is expressible.
* A Rust `panic!`/`expect` on a reachable path is modelled by `Option`
  (`none`) or by an explicit error value (`Except`).
-/

namespace QueueBot

/-- A Slack user ID; the source's `UserID` wraps a `String` and its
`PartialEq` compares by that string only. -/
abbrev UserID := String

/-- An I/O error is only ever displayed, so its message suffices. -/
abbrev IOError := String

/-- The mapping from Slack IDs to (real name?, username?) pairs, the
source's `SlackMap` (a `HashMap`; modelled as an association list with
first-match lookup). -/
abbrev SlackMap := List (UserID × (Option String × Option String))

/-- Environment-chosen outcome of one attempt to write the backing file. -/
inductive WriteOutcome where
  | ok : WriteOutcome
  | err : IOError → WriteOutcome
  deriving DecidableEq

/-- The result of adding a user to the queue (source enum `AddResult`). -/
inductive AddResult where
  | UserNotAdded : AddResult
  | UserSuccessfullyAdded : AddResult
  | UserUnsuccessfullyAdded : IOError → AddResult
  deriving DecidableEq

/-- The result of removing a user from the queue (source enum `RemoveResult`). -/
inductive RemoveResult where
  | NonExistentUser : RemoveResult
  | UserSuccessfullyRemoved : Nat → RemoveResult
  | UserUnsuccessfullyRemoved : IOError → RemoveResult
  deriving DecidableEq

/-- The `Queue` state: the deque of user IDs, the user directory, and the
backing file modelled by its contents plus an instrumentation counter of
write attempts. -/
structure Queue where
  queue : List UserID
  uid_username_mapping : SlackMap
  file : String
  io_ops : Nat
  deriving DecidableEq

/-- The User ID for the Queue app (source constant `QUEUE_UID`). -/
def QUEUE_UID : String := "<@U01A844Q2US>"

/-- `HashMap::get` on the user directory (source `Queue::get_username_by_id`,
modulo passing the map explicitly). -/
def get_username_by_id (m : SlackMap) (id : UserID) : Option (Option String × Option String) :=
  match m with
  | [] => none
  | (k, v) :: rest => if k = id then some v else get_username_by_id rest id

/-- Serialization of the queue: one `{position}\t{uid}\n` line per entry,
positions 0-based from the head (the buffer built by `Queue::write_state`). -/
def serialize (q : List UserID) : String :=
  String.join (q.enum.map (fun p => toString p.1 ++ "\t" ++ p.2 ++ "\n"))

/-- The file-overwrite discipline of `Queue::write_state`: measure the old
length, overwrite the old body with that many blanks from the start, then
write the new body from the start.  The result keeps trailing blanks when
the new body is shorter than the old one. -/
def overwrite (old new : String) : String :=
  if new.length < old.length then
    new ++ String.mk (List.replicate (old.length - new.length) ' ')
  else new

/-- `Queue::write_state`: serialize the whole queue and overwrite the
backing file, or fail with the environment-chosen I/O error.  Either way the
attempt is counted in `io_ops`. -/
def write_state (w : WriteOutcome) (st : Queue) : Queue × Except IOError Unit :=
  match w with
  | WriteOutcome.ok =>
    ({ st with file := overwrite st.file (serialize st.queue), io_ops := st.io_ops + 1 },
      Except.ok ())
  | WriteOutcome.err e => ({ st with io_ops := st.io_ops + 1 }, Except.error e)

/-- `Queue::can_add`: `self.len() < 3 || self.back() != Some(user)`. -/
def can_add (q : List UserID) (user : UserID) : Bool :=
  decide (q.length < 3) || decide (q.getLast? ≠ some user)

/-- `Queue::add_user_no_write`: push to the back when the rule allows it,
returning the new state and whether the push happened. -/
def add_user_no_write (st : Queue) (user : UserID) : Queue × Bool :=
  if can_add st.queue user then ({ st with queue := st.queue ++ [user] }, true)
  else (st, false)

/-- `Queue::add_user`: try the in-memory push; on success attempt the
persistence write and report how that went; otherwise report `UserNotAdded`
without touching the file. -/
def add_user (w : WriteOutcome) (st : Queue) (user : UserID) :
    Queue × UserID × AddResult :=
  let r := add_user_no_write st user
  if r.2 then
    match write_state w r.1 with
    | (st2, Except.ok _) => (st2, user, AddResult.UserSuccessfullyAdded)
    | (st2, Except.error e) => (st2, user, AddResult.UserUnsuccessfullyAdded e)
  else (r.1, user, AddResult.UserNotAdded)

/-- `Iterator::position` on a list, as used by `Queue::remove_user`. -/
def position (p : UserID → Bool) : List UserID → Option Nat
  | [] => none
  | a :: l => if p a then some 0 else (position p l).map (· + 1)

/-- `Queue::remove_user`: find the first occurrence of `user`, remove it,
attempt the persistence write; report `NonExistentUser` (touching nothing)
when there is no occurrence.  The source's `expect` on `queue.remove(idx)`
is unreachable because `position` only returns in-bounds indices, and the
removed element equals `user` under `UserID` equality. -/
def remove_user (w : WriteOutcome) (st : Queue) (user : UserID) :
    Queue × UserID × RemoveResult :=
  match position (fun u2 => u2 == user) st.queue with
  | some idx =>
    let removed := st.queue.getD idx user
    let st1 : Queue := { st with queue := st.queue.eraseIdx idx }
    match write_state w st1 with
    | (st2, Except.ok _) => (st2, removed, RemoveResult.UserSuccessfullyRemoved idx)
    | (st2, Except.error e) => (st2, removed, RemoveResult.UserUnsuccessfullyRemoved e)
  | none => (st, user, RemoveResult.NonExistentUser)

/-- `Queue::peek_first_user_in_line`: `self.queue.get(0)`. -/
def peek_first_user_in_line (st : Queue) : Option UserID :=
  st.queue[0]?

/-- Split a character list at every newline (the backbone of `str::lines`;
the caller discards whitespace-only pieces, which also covers the empty
piece after a trailing newline and any `\r` remnants). -/
def split_on_newline : List Char → List (List Char)
  | [] => [[]]
  | c :: cs =>
    match split_on_newline cs with
    | [] => [[]]
    | l :: ls => if c = '\n' then [] :: l :: ls else (c :: l) :: ls

/-- `str::lines`, up to the trailing empty piece that the caller filters
out anyway. -/
def lines (s : String) : List String :=
  (split_on_newline s.data).map String.mk

/-- Split a character list at every whitespace character. -/
def split_on_whitespace : List Char → List (List Char)
  | [] => [[]]
  | c :: cs =>
    match split_on_whitespace cs with
    | [] => [[]]
    | l :: ls => if c.isWhitespace then [] :: l :: ls else (c :: l) :: ls

/-- `str::split_whitespace`: the non-empty maximal runs between whitespace. -/
def split_whitespace (s : String) : List String :=
  ((split_on_whitespace s.data).filter (fun l => ¬ l.isEmpty)).map String.mk

/-- `str::trim`: drop whitespace from both ends. -/
def trim_chars (l : List Char) : List Char :=
  ((l.dropWhile Char.isWhitespace).reverse.dropWhile Char.isWhitespace).reverse

/-- `str::trim` on a string. -/
def trim (s : String) : String :=
  String.mk (trim_chars s.data)

/-- `str::parse::<usize>`: an optional leading `+`, then one or more
decimal digits (overflow is irrelevant at the sizes in scope). -/
def parse_usize (l : List Char) : Option Nat :=
  let digits := match l with
    | '+' :: rest => rest
    | _ => l
  if ¬ digits.isEmpty ∧ digits.all (fun c => c.isDigit) then
    some (digits.foldl (fun n c => n * 10 + (c.toNat - 48)) 0)
  else none

/-- The ways `Queue::from_file` panics after the file has been read. -/
inductive LoadError where
  | invalidLine : LoadError
  | invalidInteger : LoadError
  | duplicatePosition : LoadError
  | breaksAdditionRules : UserID → Nat → LoadError
  deriving DecidableEq

/-- `BTreeMap::insert` on a position-sorted association list: returns the
updated map and the previous value bound to the key, if any. -/
def btree_insert (m : List (Nat × UserID)) (k : Nat) (v : UserID) :
    List (Nat × UserID) × Option UserID :=
  match m with
  | [] => ([(k, v)], none)
  | (k2, v2) :: rest =>
    if k < k2 then ((k, v) :: (k2, v2) :: rest, none)
    else if k = k2 then ((k, v) :: rest, some v2)
    else
      let r := btree_insert rest k v
      ((k2, v2) :: r.1, r.2)

/-- The line-parsing loop of `Queue::from_file`: split each line on
whitespace, take the first two tokens, parse the first as a `usize`, and
insert into the position map, failing on a duplicate position. -/
def parse_lines : List String → List (Nat × UserID) →
    Except LoadError (List (Nat × UserID))
  | [], people => Except.ok people
  | line :: rest, people =>
    match split_whitespace line with
    | pos_s :: uid :: _ =>
      match parse_usize pos_s.data with
      | some pos =>
        match btree_insert people pos uid with
        | (people2, none) => parse_lines rest people2
        | (_, some _) => Except.error LoadError.duplicatePosition
      | none => Except.error LoadError.invalidInteger
    | _ => Except.error LoadError.invalidLine

/-- The replay loop of `Queue::from_file`: feed the parsed `(position, uid)`
pairs, in ascending position order, through `add_user_no_write`, failing
when an insertion breaks the addition rules. -/
def replay : List (Nat × UserID) → Queue → Except LoadError Queue
  | [], st => Except.ok st
  | (pos, uid) :: rest, st =>
    let r := add_user_no_write st uid
    if r.2 then replay rest r.1
    else Except.error (LoadError.breaksAdditionRules uid pos)

/-- `Queue::from_file`, given the contents of the backing file: iterate over
the non-blank lines, parse them into the position map, then replay the
insertions through the non-persisting add path.  The opened file is not
truncated, so the new state keeps `contents` as its file body. -/
def from_file (m : SlackMap) (contents : String) : Except LoadError Queue := do
  let ls := (lines contents).filter (fun s => ¬ (trim_chars s.data).isEmpty)
  let people ← parse_lines ls []
  replay people { queue := [], uid_username_mapping := m, file := contents, io_ops := 0 }

/-- One line of the `fmt::Display` rendering for the pair
`(index, user)`: look the user up in the directory (the source `expect`s
here, modelled by `none`), fall back to the raw ID when the real name is
absent, and append the username in parentheses when present and nonempty. -/
def display_line (m : SlackMap) (p : Nat × UserID) : Option String :=
  match get_username_by_id m p.2 with
  | none => none
  | some (maybe_real_name, maybe_username) =>
    let real_name := maybe_real_name.getD p.2
    some (match maybe_username with
      | some uname =>
        if ¬ uname.isEmpty then toString p.1 ++ ". " ++ real_name ++ " (" ++ uname ++ ")\n"
        else toString p.1 ++ ". " ++ real_name ++ "\n"
      | none => toString p.1 ++ ". " ++ real_name ++ "\n")

/-- Map a fallible function over a list, failing as soon as it fails (the
panic inside the `map` closure of the `Display` impl propagates). -/
def mapOption (f : α → Option β) : List α → Option (List β)
  | [] => some []
  | a :: l =>
    match f a with
    | none => none
    | some b => (mapOption f l).map (fun bs => b :: bs)

/-- `impl fmt::Display for Queue`: the header followed by the concatenated
numbered lines; `none` models the panic on a user missing from the
directory. -/
def render (st : Queue) : Option String :=
  (mapOption (display_line st.uid_username_mapping) st.queue.enum).map
    (fun ls => "Here are the people currently in line:\n" ++ String.join ls)

/-- `Queue::add` (the `add` command handler): perform `add_user` and format
the reply. -/
def add (w : WriteOutcome) (st : Queue) (user : UserID) : Queue × String :=
  match add_user w st user with
  | (st2, u, AddResult.UserSuccessfullyAdded) =>
    (st2, "Okay <@" ++ u ++ ">, I have added you to the queue.")
  | (st2, u, AddResult.UserNotAdded) =>
    (st2, "<@" ++ u ++ ">, you cannot be added to the queue at this time. " ++
      "Please let others get a chance to wait in line before you go again.")
  | (st2, u, AddResult.UserUnsuccessfullyAdded e) =>
    (st2, "Hi <@" ++ u ++ ">. You have been added to the queue, but this change " ++
      "has not been reflected in the backup file that stores the state of the " ++
      "queue. If it helps, the reason why is: " ++ e)

/-- `Queue::done` (the `done` command handler): perform `remove_user` and
format the reply; when the removed entry was at the front, additionally name
the next person in line, or say that nobody is next. -/
def done (w : WriteOutcome) (st : Queue) (user : UserID) : Queue × String :=
  match remove_user w st user with
  | (st2, removed, RemoveResult.UserSuccessfullyRemoved idx) =>
    let response := "Okay <@" ++ removed ++ ">, you have been removed from" ++
      (if idx = 0 then " the front of " else " ") ++ "the queue."
    let response :=
      if idx = 0 then
        match peek_first_user_in_line st2 with
        | some next => response ++ "\nHey <@" ++ next ++ ">! You\x27re next in line!"
        | none => response ++ "\nNobody is next in line!"
      else response
    (st2, response)
  | (st2, u, RemoveResult.NonExistentUser) =>
    (st2, "<@" ++ u ++ ">, you cannot be removed; you are not in the queue.")
  | (st2, u, RemoveResult.UserUnsuccessfullyRemoved e) =>
    (st2, "Hi <@" ++ u ++ ">. You were removed from the queue, but this change " ++
      "has not been reflected in the backup file that stores the state of the " ++
      "queue. If it helps, the reason why is: " ++ e)

/-- The help message (source constant `USAGE`; the Rust `\`-continuations
join the pieces without inserting whitespace). -/
def USAGE : String :=
  "*Queue* is a :slack: bot that keeps track of who is waiting in line to use the " ++
  "3D printers. You interact with it by @mentioning it and then typing a command " ++
  "(e.g. `@Queue help`).Here are the different commands *Queue* currently recognizes:\n\n" ++
  "• *add*: Add yourself to the queue. You can add yourself multiples times, " ++
  "in case there are multiple things you want to 3D print. However, you cannot have " ++
  "two back-to-back instances of yourself in the queue so that you let others get a " ++
  "chance. However, if the queue is relatively empty (and by relatively empty I mean " ++
  "less than 3 people in line), then you _can_ have back-to-back instances of " ++
  "yourself, since not as many people are being negatively affected by having " ++
  "back-to-back instances of yourself in the queue as they would be if there were " ++
  "more than 3 people in line.\n" ++
  "• *done*: Leave the queue. If there are multiple instances of you in the " ++
  "queue, the _first_ instance (i.e. the one closest to the front) is removed. If " ++
  "you were in 0th place when you were removed, the person is 1st place is notified " ++
  "of this change.\n" ++
  "• *show*: See who is in the queue and in what place.\n" ++
  "• *help*: Display this message."

/-- `str::to_lowercase`, on the ASCII fragment in scope. -/
def to_lowercase (s : String) : String :=
  String.mk (s.data.map Char.toLower)

/-- Fuelled driver for `str::trim_start_matches`: repeatedly strip the
pattern from the front as long as it is a (nonempty) prefix. -/
def trim_start_matches_go : Nat → String → String → String
  | 0, s, _ => s
  | n + 1, s, pat =>
    if pat.data.isPrefixOf s.data ∧ ¬ pat.data.isEmpty then
      trim_start_matches_go n (String.mk (s.data.drop pat.data.length)) pat
    else s

/-- `str::trim_start_matches` with a string pattern: remove every leading
occurrence of the pattern.  `s.length` steps of fuel suffice because each
strip removes at least one character. -/
def trim_start_matches (s pat : String) : String :=
  trim_start_matches_go (s.data.length + 1) s pat

/-- `Queue::determine_response`: lowercase the body, strip the (lowercased)
bot mention from the front, trim, and dispatch on the command word.  The
`show` branch renders the queue, whose panic on a missing directory entry
is the only way a reply can be missing. -/
def determine_response (w : WriteOutcome) (st : Queue) (user : UserID) (body : String) :
    Queue × Option String :=
  let lowercase_queue_id := to_lowercase QUEUE_UID
  let body2 := trim_start_matches (to_lowercase body) lowercase_queue_id
  let s := trim body2
  if s = "add" then
    let r := add w st user
    (r.1, some r.2)
  else if s = "done" then
    let r := done w st user
    (r.1, some r.2)
  else if s = "show" then (st, render st)
  else if s = "help" then (st, some USAGE)
  else (st, some ("Unrecognized command " ++ s ++ ". Try `@Queue help`."))

/-- The queue contents reachable from the empty queue (`Queue::new`)
through the public mutating operations `add_user` and `remove_user` alone
(with any directory, file contents, and write outcomes). -/
inductive ReachableQueue : List UserID → Prop where
  | empty : ReachableQueue []
  | add (q : List UserID) (u : UserID) (w : WriteOutcome) (m : SlackMap)
      (f : String) (n : Nat) : ReachableQueue q →
      ReachableQueue ((add_user w ⟨q, m, f, n⟩ u).1.queue)
  | remove (q : List UserID) (u : UserID) (w : WriteOutcome) (m : SlackMap)
      (f : String) (n : Nat) : ReachableQueue q →
      ReachableQueue ((remove_user w ⟨q, m, f, n⟩ u).1.queue)

/-! ### Helper lemmas -/

theorem mem_of_getLast? {l : List UserID} {a : UserID} (h : l.getLast? = some a) :
    a ∈ l := by
  induction l with
  | nil => simp at h
  | cons x xs ih =>
    cases xs with
    | nil =>
      simp only [List.getLast?_singleton, Option.some.injEq] at h
      simp [h]
    | cons y ys =>
      rw [List.getLast?_cons_cons] at h
      exact List.mem_cons_of_mem x (ih h)

theorem position_spec {p : UserID → Bool} {l : List UserID} {i : Nat}
    (h : position p l = some i) :
    ∃ a, l[i]? = some a ∧ p a = true ∧
      ∀ j, j < i → ∀ b, l[j]? = some b → p b = false := by
  induction l generalizing i with
  | nil => simp [position] at h
  | cons x xs ih =>
    cases hx : p x with
    | true =>
      simp only [position, hx, if_true, Option.some.injEq] at h
      subst h
      exact ⟨x, by simp, hx, fun j hj => by omega⟩
    | false =>
      simp only [position, hx, Bool.false_eq_true, if_false, Option.map_eq_some'] at h
      obtain ⟨i2, hi2, rfl⟩ := h
      obtain ⟨a, ha, hpa, hmin⟩ := ih hi2
      refine ⟨a, by simpa using ha, hpa, ?_⟩
      intro j hj b hb
      cases j with
      | zero =>
        simp only [List.getElem?_cons_zero, Option.some.injEq] at hb
        subst hb
        exact hx
      | succ j2 =>
        simp only [List.getElem?_cons_succ] at hb
        exact hmin j2 (by omega) b hb

theorem position_eq_none_iff {p : UserID → Bool} {l : List UserID} :
    position p l = none ↔ ∀ a ∈ l, p a = false := by
  induction l with
  | nil => simp [position]
  | cons x xs ih =>
    by_cases hx : p x
    · simp [position, hx]
    · simp [position, hx, Option.map_eq_none', ih]

theorem position_append_last {l : List UserID} {u : UserID}
    (h : ∀ a ∈ l, (a == u) = false) :
    position (fun x => x == u) (l ++ [u]) = some l.length := by
  induction l with
  | nil => simp [position]
  | cons x xs ih =>
    have hx := h x (List.mem_cons_self x xs)
    simp [List.cons_append, position, hx,
      ih (fun a ha => h a (List.mem_cons_of_mem x ha))]

theorem eraseIdx_append_length (l : List UserID) (u : UserID) :
    (l ++ [u]).eraseIdx l.length = l := by
  induction l with
  | nil => simp [List.eraseIdx]
  | cons x xs ih => simp [List.eraseIdx, ih]

/-! ### Claims -/

/-- Claim C1: for every queue state and user `u`, `can_add` returns true iff
the queue length is less than 3 or the current tail is not `u`; in
particular a user who is not currently at the tail is always admitted,
regardless of earlier non-adjacent entries of theirs. -/
theorem claim1_can_add (q : List UserID) (u : UserID) :
    (can_add q u = true ↔ (q.length < 3 ∨ q.getLast? ≠ some u)) ∧
    (q.getLast? ≠ some u → can_add q u = true) := by
  constructor
  · simp [can_add]
  · intro h
    simp [can_add, h]

/-- Witness for C1 at the queue `[UA, UB, UA, UB]` (user `UA` has two
non-adjacent entries and is admitted because the tail is `UB`). -/
theorem claim1_can_add_witness :
    (["UA", "UB", "UA", "UB"].getLast? ≠ some "UA") ∧
    can_add ["UA", "UB", "UA", "UB"] "UA" = true :=
  ⟨by decide, (claim1_can_add ["UA", "UB", "UA", "UB"] "UA").2 (by decide)⟩

/-- Claim C5: `add_user` returns the user back; when `can_add` passes it
appends the user at the tail (kept in memory whether or not the persistence
write succeeds) and reports `UserSuccessfullyAdded` on a successful write or
`UserUnsuccessfullyAdded e` (leaving the file untouched) on a failed one;
when `can_add` fails it returns `UserNotAdded` with the state — queue, file
and I/O counter — completely unchanged. -/
theorem claim5_add_user (w : WriteOutcome) (st : Queue) (u : UserID) :
    (add_user w st u).2.1 = u ∧
    (can_add st.queue u = true →
      (add_user w st u).1.queue = st.queue ++ [u] ∧
      (w = WriteOutcome.ok → (add_user w st u).2.2 = AddResult.UserSuccessfullyAdded) ∧
      (∀ e, w = WriteOutcome.err e →
        (add_user w st u).2.2 = AddResult.UserUnsuccessfullyAdded e ∧
        (add_user w st u).1.file = st.file)) ∧
    (can_add st.queue u = false → add_user w st u = (st, u, AddResult.UserNotAdded)) := by
  cases w with
  | ok =>
    by_cases h : can_add st.queue u
    · simp [add_user, add_user_no_write, write_state, h]
    · simp [add_user, add_user_no_write, write_state, h]
  | err e =>
    by_cases h : can_add st.queue u
    · simp [add_user, add_user_no_write, write_state, h]
    · simp [add_user, add_user_no_write, write_state, h]

/-- Witness for C5: adding `UA` to the empty queue with a succeeding write. -/
theorem claim5_add_user_witness :
    can_add ([] : List UserID) "UA" = true ∧
    (add_user WriteOutcome.ok ⟨[], [], "", 0⟩ "UA").1.queue = ["UA"] ∧
    (add_user WriteOutcome.ok ⟨[], [], "", 0⟩ "UA").2.2 = AddResult.UserSuccessfullyAdded :=
  ⟨by decide,
    ((claim5_add_user WriteOutcome.ok ⟨[], [], "", 0⟩ "UA").2.1 (by decide)).1,
    ((claim5_add_user WriteOutcome.ok ⟨[], [], "", 0⟩ "UA").2.1 (by decide)).2.1 rfl⟩

/-- Claim C6: `remove_user` removes exactly the first (closest-to-head)
occurrence of `u` — the entry at the returned 0-based index `idx`, every
earlier entry differing from `u` — leaving the prefix before `idx` and the
suffix after it in order; with a successful write it reports
`UserSuccessfullyRemoved idx`.  When `u` has no occurrence (in particular on
the empty queue) it returns `NonExistentUser` with the state — queue, file
and I/O counter — completely unchanged. -/
theorem claim6_remove_user (w : WriteOutcome) (st : Queue) (u : UserID) :
    (position (fun x => x == u) st.queue = none →
      remove_user w st u = (st, u, RemoveResult.NonExistentUser)) ∧
    (∀ idx, position (fun x => x == u) st.queue = some idx →
      (remove_user w st u).1.queue = st.queue.take idx ++ st.queue.drop (idx + 1) ∧
      st.queue[idx]? = some u ∧
      (∀ j, j < idx → ∀ b, st.queue[j]? = some b → b ≠ u) ∧
      (remove_user w st u).2.1 = u ∧
      (w = WriteOutcome.ok →
        (remove_user w st u).2.2 = RemoveResult.UserSuccessfullyRemoved idx)) := by
  constructor
  · intro h
    simp [remove_user, h]
  · intro idx h
    obtain ⟨a, ha, hpa, hmin⟩ := position_spec h
    have hau : a = u := by simpa using hpa
    subst hau
    refine ⟨?_, ha, ?_, ?_, ?_⟩
    · cases w <;>
        simp [remove_user, h, write_state, List.eraseIdx_eq_take_drop_succ]
    · intro j hj b hb
      have := hmin j hj b hb
      simpa using this
    · cases w <;> simp [remove_user, h, write_state, ha]
    · intro hw
      subst hw
      simp [remove_user, h, write_state]

/-- Witness for C6, the spec scenario: removing `UB` from `[UA, UB, UC]`
returns index 1 and leaves `[UA, UC]`. -/
theorem claim6_remove_user_witness :
    position (fun x => x == "UB") ["UA", "UB", "UC"] = some 1 ∧
    (remove_user WriteOutcome.ok ⟨["UA", "UB", "UC"], [], "", 0⟩ "UB").1.queue =
      ["UA", "UC"] ∧
    (remove_user WriteOutcome.ok ⟨["UA", "UB", "UC"], [], "", 0⟩ "UB").2.2 =
      RemoveResult.UserSuccessfullyRemoved 1 :=
  ⟨by decide,
    ((claim6_remove_user WriteOutcome.ok ⟨["UA", "UB", "UC"], [], "", 0⟩ "UB").2 1
      (by decide)).1,
    ((claim6_remove_user WriteOutcome.ok ⟨["UA", "UB", "UC"], [], "", 0⟩ "UB").2 1
      (by decide)).2.2.2.2 rfl⟩

/-- Claim C4 counterexample: from `[UA, UB]`, adding `UA` (admitted: the
tail is `UB`) and then removing `UA` removes the original head occurrence,
leaving `[UB, UA]`, not the prior content `[UA, UB]`. -/
theorem claim4_counterexample :
    (remove_user WriteOutcome.ok
        (add_user WriteOutcome.ok ⟨["UA", "UB"], [], "", 0⟩ "UA").1 "UA").1.queue =
      ["UB", "UA"] ∧
    ¬ ((remove_user WriteOutcome.ok
        (add_user WriteOutcome.ok ⟨["UA", "UB"], [], "", 0⟩ "UA").1 "UA").1.queue =
      ["UA", "UB"]) := by
  decide

/-- Claim C4 (amended): when `u` does not already occur in the queue,
`add_user u` immediately followed by `remove_user u` returns the in-memory
queue to exactly its prior content, whatever the two write outcomes are;
when `u` already occurs, the removal can take an earlier occurrence and the
round trip fails. -/
theorem claim4_add_then_remove (w1 w2 : WriteOutcome) (st : Queue) (u : UserID)
    (h : u ∉ st.queue) :
    (remove_user w2 (add_user w1 st u).1 u).1.queue = st.queue := by
  have hcan : can_add st.queue u = true := by
    rcases hl : st.queue.getLast? with _ | a
    · simp [can_add, hl]
    · have ha : a ∈ st.queue := mem_of_getLast? hl
      have hne : ¬ (a = u) := fun e => h (e ▸ ha)
      simp [can_add, hl, hne]
  have hq : (add_user w1 st u).1.queue = st.queue ++ [u] := by
    cases w1 <;> simp [add_user, add_user_no_write, write_state, hcan]
  have hpos : position (fun x => x == u) (st.queue ++ [u]) =
      some st.queue.length := by
    refine position_append_last ?_
    intro a ha
    have : ¬ (a = u) := fun e => h (e ▸ ha)
    simpa using this
  cases w2 <;>
    simp [remove_user, hq, hpos, write_state, eraseIdx_append_length]

/-- Witness for the amended C4: `UA` is absent from `[UB]`, and adding then
removing `UA` restores `[UB]`. -/
theorem claim4_add_then_remove_witness :
    ("UA" ∉ ["UB"]) ∧
    (remove_user WriteOutcome.ok
        (add_user WriteOutcome.ok ⟨["UB"], [], "", 0⟩ "UA").1 "UA").1.queue = ["UB"] :=
  ⟨by decide,
    claim4_add_then_remove WriteOutcome.ok WriteOutcome.ok ⟨["UB"], [], "", 0⟩ "UA"
      (by decide)⟩

/-- Claim C2 counterexample: loading a snapshot with lines for positions 0
and 2 but no position 1 does NOT fail — `from_file` succeeds and silently
renumbers, yielding the queue `[A, C]`. -/
theorem claim2_counterexample :
    from_file [] "0\tA\n2\tC\n" = Except.ok ⟨["A", "C"], [], "0\tA\n2\tC\n", 0⟩ :=
  rfl

/-- Claim C2 (amended): `from_file` checks position uniqueness and format —
a duplicate position and an unparseable position are fatal load errors —
but it does not require contiguity: a snapshot with a gap in its positions
loads successfully, its entries silently renumbered by replaying them in
ascending position order. -/
theorem claim2_load_checks :
    from_file [] "0\tA\n2\tC\n" = Except.ok ⟨["A", "C"], [], "0\tA\n2\tC\n", 0⟩ ∧
    from_file [] "0\tA\n0\tC\n" = Except.error LoadError.duplicatePosition ∧
    from_file [] "0\tA\nx\tC\n" = Except.error LoadError.invalidInteger :=
  ⟨rfl, rfl, rfl⟩

/-- Claim C7: a save overwrites the file with exactly the serialized queue
followed by nothing but blank padding (so no stale non-blank byte survives
a shrinking rewrite), and saving a queue of three distinct users then
loading the resulting file restores the same sequence of user IDs — both
onto a fresh (empty) backing file and over a longer previous body, whose
leftovers are blanked and then ignored as whitespace-only trailing data. -/
theorem claim7_save_then_load :
    (∀ st : Queue, ∃ k, (write_state WriteOutcome.ok st).1.file =
      serialize st.queue ++ String.mk (List.replicate k ' ')) ∧
    ((from_file []
        ((write_state WriteOutcome.ok
          ⟨["UA8RXUPSP", "UNB2LMZRP", "UN480W9ND"], [], "", 0⟩).1.file)).map
      Queue.queue = Except.ok ["UA8RXUPSP", "UNB2LMZRP", "UN480W9ND"]) ∧
    ((from_file []
        ((write_state WriteOutcome.ok
          ⟨["UA8RXUPSP", "UNB2LMZRP", "UN480W9ND"], [],
            String.mk (List.replicate 60 'Z'), 0⟩).1.file)).map
      Queue.queue = Except.ok ["UA8RXUPSP", "UNB2LMZRP", "UN480W9ND"]) := by
  refine ⟨?_, rfl, rfl⟩
  intro st
  unfold write_state overwrite
  by_cases hlen : (serialize st.queue).length < st.file.length
  · exact ⟨st.file.length - (serialize st.queue).length, by simp [hlen]⟩
  · refine ⟨0, ?_⟩
    simp [hlen, String.append_empty]

/-- Claim C9: the queue `[UA, UA, UA, UA]` is reachable through the public
`add_user`/`remove_user` operations alone (three adds of `UA`, an add of
`UB`, another add of `UA`, then removal of `UB`), yet loading the file
produced by saving it is rejected: the replay re-applies the admission rule
and the fourth consecutive `UA` fails it once the length is 3. -/
theorem claim9_save_load_not_total :
    ReachableQueue ["UA", "UA", "UA", "UA"] ∧
    from_file []
        ((write_state WriteOutcome.ok ⟨["UA", "UA", "UA", "UA"], [], "", 0⟩).1.file) =
      Except.error (LoadError.breaksAdditionRules "UA" 3) := by
  constructor
  · have h0 : ReachableQueue [] := ReachableQueue.empty
    have e1 : (add_user WriteOutcome.ok ⟨[], [], "", 0⟩ "UA").1.queue = ["UA"] := rfl
    have h1 : ReachableQueue ["UA"] :=
      e1 ▸ ReachableQueue.add [] "UA" WriteOutcome.ok [] "" 0 h0
    have e2 : (add_user WriteOutcome.ok ⟨["UA"], [], "", 0⟩ "UA").1.queue =
        ["UA", "UA"] := rfl
    have h2 : ReachableQueue ["UA", "UA"] :=
      e2 ▸ ReachableQueue.add ["UA"] "UA" WriteOutcome.ok [] "" 0 h1
    have e3 : (add_user WriteOutcome.ok ⟨["UA", "UA"], [], "", 0⟩ "UA").1.queue =
        ["UA", "UA", "UA"] := rfl
    have h3 : ReachableQueue ["UA", "UA", "UA"] :=
      e3 ▸ ReachableQueue.add ["UA", "UA"] "UA" WriteOutcome.ok [] "" 0 h2
    have e4 : (add_user WriteOutcome.ok ⟨["UA", "UA", "UA"], [], "", 0⟩ "UB").1.queue =
        ["UA", "UA", "UA", "UB"] := rfl
    have h4 : ReachableQueue ["UA", "UA", "UA", "UB"] :=
      e4 ▸ ReachableQueue.add ["UA", "UA", "UA"] "UB" WriteOutcome.ok [] "" 0 h3
    have e5 : (add_user WriteOutcome.ok
        ⟨["UA", "UA", "UA", "UB"], [], "", 0⟩ "UA").1.queue =
        ["UA", "UA", "UA", "UB", "UA"] := rfl
    have h5 : ReachableQueue ["UA", "UA", "UA", "UB", "UA"] :=
      e5 ▸ ReachableQueue.add ["UA", "UA", "UA", "UB"] "UA" WriteOutcome.ok [] "" 0 h4
    have e6 : (remove_user WriteOutcome.ok
        ⟨["UA", "UA", "UA", "UB", "UA"], [], "", 0⟩ "UB").1.queue =
        ["UA", "UA", "UA", "UA"] := rfl
    exact e6 ▸ ReachableQueue.remove ["UA", "UA", "UA", "UB", "UA"] "UB"
      WriteOutcome.ok [] "" 0 h5
  · rfl

theorem mapOption_isSome_iff {f : α → Option β} {l : List α} :
    (mapOption f l).isSome ↔ ∀ a ∈ l, (f a).isSome := by
  induction l with
  | nil => simp [mapOption]
  | cons x xs ih =>
    cases hfx : f x with
    | none => simp [mapOption, hfx]
    | some b => simp [mapOption, hfx, Option.isSome_map', ih]

theorem mapOption_eq_some_map {f : α → Option β} {g : α → β} {l : List α}
    (h : ∀ a ∈ l, f a = some (g a)) : mapOption f l = some (l.map g) := by
  induction l with
  | nil => rfl
  | cons x xs ih =>
    simp [mapOption, h x (List.mem_cons_self x xs),
      ih (fun a ha => h a (List.mem_cons_of_mem x ha))]

theorem display_line_isSome {m : SlackMap} {p : Nat × UserID} :
    (display_line m p).isSome ↔ (get_username_by_id m p.2).isSome := by
  rcases p with ⟨i, u⟩
  cases h : get_username_by_id m u with
  | none => simp [display_line, h]
  | some v =>
    rcases v with ⟨rn, un⟩
    simp [display_line, h]

/-- Claim C3 counterexample: rendering a queue whose (sole) entry is
missing from the user directory fails — the `Display` impl `expect`s the
lookup — rather than falling back to the raw ID. -/
theorem claim3_counterexample :
    render ⟨["UA8RXUPSP"], [], "", 0⟩ = none :=
  rfl

/-- Claim C3 (amended): rendering succeeds exactly when every queued user
has a directory entry; under that condition it produces the header plus one
numbered line per entry from head (index 0) to tail; and for an entry whose
directory record has no real name the line falls back to the raw user ID.
A user entirely absent from the directory, however, makes the render
operation fail. -/
theorem claim3_render (st : Queue) :
    ((render st).isSome ↔
      ∀ u ∈ st.queue, (get_username_by_id st.uid_username_mapping u).isSome) ∧
    ((∀ u ∈ st.queue, (get_username_by_id st.uid_username_mapping u).isSome) →
      render st = some ("Here are the people currently in line:\n" ++
        String.join (st.queue.enum.map
          (fun p => (display_line st.uid_username_mapping p).getD "")))) ∧
    (∀ i : Nat, ∀ u : UserID,
      get_username_by_id st.uid_username_mapping u = some (none, none) →
      display_line st.uid_username_mapping (i, u) =
        some (toString i ++ ". " ++ u ++ "\n")) := by
  refine ⟨?_, ?_, ?_⟩
  · have h1 : (render st).isSome ↔
        ∀ p ∈ st.queue.enum, (display_line st.uid_username_mapping p).isSome := by
      simp [render, Option.isSome_map', mapOption_isSome_iff]
    rw [h1]
    constructor
    · intro hall u hu
      obtain ⟨i, hilt, rfl⟩ := List.mem_iff_getElem.1 hu
      have hp : (i, st.queue[i]) ∈ st.queue.enum :=
        List.mem_enum_iff_getElem?.2 (by simp)
      have := hall _ hp
      rwa [display_line_isSome] at this
    · intro hall p hp
      rw [display_line_isSome]
      exact hall p.2 (List.getElem?_mem (List.mem_enum_iff_getElem?.1 hp))
  · intro h
    have hline : ∀ p ∈ st.queue.enum,
        display_line st.uid_username_mapping p =
          some ((fun p => (display_line st.uid_username_mapping p).getD "") p) := by
      intro p hp
      have hmem : p.2 ∈ st.queue := by
        have := List.mem_enum_iff_getElem?.1 hp
        exact List.getElem?_mem this
      have hsome : (display_line st.uid_username_mapping p).isSome :=
        display_line_isSome.2 (h p.2 hmem)
      obtain ⟨s, hs⟩ := Option.isSome_iff_exists.1 hsome
      simp [hs]
    rw [render, mapOption_eq_some_map hline]
    rfl
  · intro i u h
    simp [display_line, h]

/-- Witness for the amended C3: a one-entry queue whose user has a
directory record with no real name and no username renders to a single
line using the raw ID. -/
theorem claim3_render_witness :
    (∀ u ∈ ["UA"], (get_username_by_id [("UA", (none, none))] u).isSome) ∧
    render ⟨["UA"], [("UA", (none, none))], "", 0⟩ =
      some "Here are the people currently in line:\n0. UA\n" :=
  ⟨by decide,
    ((claim3_render ⟨["UA"], [("UA", (none, none))], "", 0⟩).2.1 (by decide)).trans
      (by rfl)⟩

/-- Claim C8: when the caller has an occurrence in the queue, the `done`
command removes the first one (at index `idx`); exactly when `idx = 0` the
reply carries a follow-up line — naming the new head when one exists, or
saying nobody is next when the queue became empty — and for `idx ≠ 0` the
reply is the plain removal message with no follow-up.  (Stated for the
normal path where the persistence write succeeds.) -/
theorem claim8_done (st : Queue) (u : UserID) (idx : Nat)
    (h : position (fun x => x == u) st.queue = some idx) :
    (done WriteOutcome.ok st u).1.queue = st.queue.eraseIdx idx ∧
    (idx = 0 → ∀ next, (st.queue.eraseIdx 0)[0]? = some next →
      (done WriteOutcome.ok st u).2 =
        ("Okay <@" ++ u ++ ">, you have been removed from" ++ " the front of " ++
          "the queue.") ++ "\nHey <@" ++ next ++ ">! You\x27re next in line!") ∧
    (idx = 0 → st.queue.eraseIdx 0 = [] →
      (done WriteOutcome.ok st u).2 =
        ("Okay <@" ++ u ++ ">, you have been removed from" ++ " the front of " ++
          "the queue.") ++ "\nNobody is next in line!") ∧
    (idx ≠ 0 → (done WriteOutcome.ok st u).2 =
      "Okay <@" ++ u ++ ">, you have been removed from" ++ " " ++ "the queue.") := by
  obtain ⟨a, ha, hpa, hmin⟩ := position_spec h
  have hau : a = u := by simpa using hpa
  subst hau
  refine ⟨?_, ?_, ?_, ?_⟩
  · simp [done, remove_user, h, write_state]
  · intro h0 next hnext
    subst h0
    have hnext2 : st.queue[1]? = some next := by
      rcases hq : st.queue with _ | ⟨x, rest⟩ <;> rw [hq] at hnext
      · simp [List.eraseIdx] at hnext
      · simpa [List.eraseIdx] using hnext
    simp [done, remove_user, h, write_state, peek_first_user_in_line, hnext2, ha]
  · intro h0 hempty
    subst h0
    have hempty2 : st.queue[1]? = none := by
      rcases hq : st.queue with _ | ⟨x, rest⟩ <;> rw [hq] at hempty <;>
        simp_all [List.eraseIdx]
    simp [done, remove_user, h, write_state, peek_first_user_in_line, hempty2, ha]
  · intro hne
    simp [done, remove_user, h, write_state, hne, ha]

/-- Witness for C8, the spec scenario: `done` from caller `UA` at the head
of `[UA, UB]` removes `UA` and the reply names `UB` as next in line. -/
theorem claim8_done_witness :
    position (fun x => x == "UA") ["UA", "UB"] = some 0 ∧
    (done WriteOutcome.ok ⟨["UA", "UB"], [], "", 0⟩ "UA").1.queue = ["UB"] ∧
    (done WriteOutcome.ok ⟨["UA", "UB"], [], "", 0⟩ "UA").2 =
      "Okay <@UA>, you have been removed from the front of the queue." ++
        "\nHey <@UB>! You\x27re next in line!" :=
  ⟨by decide,
    (claim8_done ⟨["UA", "UB"], [], "", 0⟩ "UA" 0 (by decide)).1,
    (claim8_done ⟨["UA", "UB"], [], "", 0⟩ "UA" 0 (by decide)).2.1 rfl "UB" rfl⟩

/-- Claim C10: `determine_response` lowercases the whole message before
stripping the bot mention and matching the command word — so two bodies
that agree up to letter case dispatch identically (e.g. `ADD` behaves like
`add`) — and the unrecognized-command reply echoes the lowercased,
mention-stripped, trimmed remainder of the message. -/
theorem claim10_determine_response (w : WriteOutcome) (st : Queue) (u : UserID)
    (b1 b2 : String) (h : to_lowercase b1 = to_lowercase b2) :
    determine_response w st u b1 = determine_response w st u b2 ∧
    (∀ s, s = trim (trim_start_matches (to_lowercase b1) (to_lowercase QUEUE_UID)) →
      s ≠ "add" → s ≠ "done" → s ≠ "show" → s ≠ "help" →
      determine_response w st u b1 =
        (st, some ("Unrecognized command " ++ s ++ ". Try `@Queue help`."))) := by
  constructor
  · unfold determine_response
    rw [h]
  · intro s hs h1 h2 h3 h4
    simp only [determine_response]
    rw [← hs, if_neg h1, if_neg h2, if_neg h3, if_neg h4]

/-- Witness for C10: `"<@U01A844Q2US> ADD"` dispatches exactly like
`"<@u01a844q2us> add"`, and an unknown command word `FOO` is echoed back
lowercased. -/
theorem claim10_determine_response_witness :
    (to_lowercase "<@U01A844Q2US> ADD" = to_lowercase "<@u01a844q2us> add") ∧
    determine_response WriteOutcome.ok ⟨[], [], "", 0⟩ "UA" "<@U01A844Q2US> ADD" =
      determine_response WriteOutcome.ok ⟨[], [], "", 0⟩ "UA" "<@u01a844q2us> add" ∧
    determine_response WriteOutcome.ok ⟨[], [], "", 0⟩ "UA" "<@U01A844Q2US> FOO" =
      (⟨[], [], "", 0⟩, some "Unrecognized command foo. Try `@Queue help`.") :=
  ⟨rfl,
    (claim10_determine_response WriteOutcome.ok ⟨[], [], "", 0⟩ "UA"
      "<@U01A844Q2US> ADD" "<@u01a844q2us> add" rfl).1,
    ((claim10_determine_response WriteOutcome.ok ⟨[], [], "", 0⟩ "UA"
      "<@U01A844Q2US> FOO" "<@U01A844Q2US> FOO" rfl).2 "foo" (by decide)
      (by decide) (by decide) (by decide) (by decide))⟩

end QueueBot
